import Mathlib

/-!
Verification of the orchestration core of the VXDL/VOX creative front-end.

This development shallowly embeds the orchestration logic of the source
(the retrying API client, the persistent activity store, the session
undo/redo stack, the request router of `handleGenerate`, the video quota
gate, the cancellable video poll loop, `combineImages`, the multi-image
tray, and `generateImagesFromPrompt`) as executable Lean definitions, and
proves the specified properties about them.

Conventions: remote calls, the credential-selection dialog and storage
writes are modelled by explicit environment parameters (functions giving
the outcome of the n-th attempt, or the outcome of writing a given list);
JS exceptions become `Except`/explicit outcome values; loops that the
source bounds by a shrinking data structure are embedded with exactly
enough fuel; mutable component state becomes explicit state records.
-/

namespace Spec2Proof

/-! ## RetryingAPIClient: executeWithApiKeyHandling (services, part_000 lines 696-730) -/

/-- Error classification used by `executeWithApiKeyHandling`: the source
distinguishes permission-denied (403 / PERMISSION_DENIED) and not-found
(404 / NOT_FOUND) failures, which trigger the credential-reselection flow,
from all other failures. -/
inductive ErrClass where
  | permissionDenied
  | notFound
  | network
  | safetyRefusal
  | quotaExceeded
  | unknown
deriving DecidableEq, Repr

/-- Outcome of one invocation of the wrapped thunk. -/
inductive Outcome (α : Type) where
  | ok (a : α)
  | err (e : ErrClass)
deriving DecidableEq, Repr

/-- The reauth-eligible class: `isPermissionDenied || isNotFound` in the source. -/
def reauthEligible : ErrClass → Bool
  | .permissionDenied => true
  | .notFound => true
  | _ => false

/-- Environment of one outer call to the retrying client: the outcome of the
n-th invocation of the wrapped thunk `fn`, whether `window.aistudio` is
available, and whether `aistudio.openSelectKey()` resolves (as opposed to
the user cancelling / the selection failing). -/
structure ApiEnv (α : Type) where
  attempt : Nat → Outcome α
  aistudioAvailable : Bool
  selectKeySucceeds : Bool

/-- Embedding of `executeWithApiKeyHandling` (part_000 lines 696-730).
Returns the surfaced result together with the number of invocations of the
wrapped thunk and the number of invocations of `aistudio.openSelectKey`.
On a reauth-eligible first failure with `aistudio` available, the source
awaits `openSelectKey()` and re-invokes the thunk once; if the selection is
refused or the second invocation fails, the original error is rethrown. -/
def executeWithApiKeyHandling {α : Type} (env : ApiEnv α) : Outcome α × Nat × Nat :=
  match env.attempt 0 with
  | .ok a => (.ok a, 1, 0)
  | .err e =>
    if reauthEligible e && env.aistudioAvailable then
      if env.selectKeySucceeds then
        match env.attempt 1 with
        | .ok a => (.ok a, 2, 1)
        | .err _ => (.err e, 2, 1)
      else (.err e, 1, 1)
    else (.err e, 1, 0)

end Spec2Proof

namespace Spec2Proof

/-- C1: for every outer call to the retrying client, the wrapped thunk is
invoked at most twice and `aistudio.openSelectKey` at most once; a second
thunk invocation happens only when the first failed with a reauth-eligible
(PermissionDenied/NotFound) classification; and when the credential flow is
refused, or the retried attempt fails again, the call surfaces an error
(the original one) without any further retry. -/
theorem c1_retry_bounds {α : Type} (env : ApiEnv α) :
    (executeWithApiKeyHandling env).2.1 ≤ 2 ∧
    (executeWithApiKeyHandling env).2.2 ≤ 1 ∧
    ((executeWithApiKeyHandling env).2.1 = 2 →
      ∃ e, env.attempt 0 = Outcome.err e ∧ reauthEligible e = true) ∧
    (∀ e, env.attempt 0 = Outcome.err e → reauthEligible e = true →
      env.aistudioAvailable = true →
      ((env.selectKeySucceeds = false →
          executeWithApiKeyHandling env = (Outcome.err e, 1, 1)) ∧
       (∀ e2, env.selectKeySucceeds = true → env.attempt 1 = Outcome.err e2 →
          executeWithApiKeyHandling env = (Outcome.err e, 2, 1)))) := by
  unfold executeWithApiKeyHandling
  cases h0 : env.attempt 0 with
  | ok a => simp
  | err e =>
    cases he : reauthEligible e <;> cases ha : env.aistudioAvailable <;>
      cases hs : env.selectKeySucceeds <;>
      cases h1 : env.attempt 1 <;>
      simp_all

/-- A concrete client environment: the first thunk attempt fails with
PermissionDenied, the credential selection succeeds, the retried attempt
fails with a network error. -/
def c1Env : ApiEnv Nat :=
  { attempt := fun n => if n = 0 then Outcome.err ErrClass.permissionDenied
                        else Outcome.err ErrClass.network,
    aistudioAvailable := true,
    selectKeySucceeds := true }

/-- Witness for C1: on `c1Env` the call surfaces the original error after
exactly two thunk invocations and one selection dialog. -/
theorem c1_retry_bounds_witness :
    executeWithApiKeyHandling c1Env = (Outcome.err ErrClass.permissionDenied, 2, 1) :=
  ((c1_retry_bounds c1Env).2.2.2
    ErrClass.permissionDenied rfl rfl rfl).2 ErrClass.network rfl rfl

end Spec2Proof

namespace Spec2Proof

/-! ## PersistentActivityStore: saveHistory / addToHistory (Root.tsx lines 97-135) -/

/-- Outcome of one `localStorage.setItem` attempt: success, a capacity
rejection (`QuotaExceededError` / `NS_ERROR_DOM_QUOTA_REACHED`), or any
other persistence error. -/
inductive WriteOutcome where
  | ok
  | quotaErr
  | otherErr
deriving DecidableEq, Repr

/-- State of the persistent activity store: the in-memory React `history`
state and the current contents of the `generationHistory` storage key
(`none` when the key is absent). Both lists are newest-first. -/
structure StoreState (α : Type) where
  mem : List α
  stored : Option (List α)
deriving DecidableEq, Repr

/-- `MAX_HISTORY_ITEMS` (Root.tsx line 19). -/
def MAX_HISTORY_ITEMS : Nat := 10

/-- Embedding of the `while (historyToSave.length > 0)` loop of
`saveHistory` (Root.tsx lines 100-127), with the write behaviour `w` giving
the outcome of `setItem` on a given list. On success the state becomes the
written list; on a capacity error the loop pops the last array element (the
oldest record, the lists being newest-first) and retries; on any other
error it logs and returns with the state untouched. When the candidate list
is exhausted the key is removed and the in-memory view cleared. The fuel is
always called with the length of the list, which the loop strictly
decreases, so the fuel-exhaustion branch is unreachable. -/
def saveHistoryFuel {α : Type} (w : List α → WriteOutcome) :
    Nat → List α → StoreState α → StoreState α
  | _, [], _ => ⟨[], none⟩
  | 0, _ :: _, s => s
  | fuel+1, a :: t, s =>
    match w (a :: t) with
    | .ok => ⟨a :: t, some (a :: t)⟩
    | .quotaErr => saveHistoryFuel w fuel ((a :: t).dropLast) s
    | .otherErr => s

/-- Embedding of `saveHistory` (Root.tsx lines 97-128). -/
def saveHistory {α : Type} (w : List α → WriteOutcome) (newHistory : List α)
    (s : StoreState α) : StoreState α :=
  saveHistoryFuel w newHistory.length newHistory s

/-- Embedding of `addToHistory` (Root.tsx lines 131-135): prepend the item,
cap at `MAX_HISTORY_ITEMS`, then save. -/
def addToHistory {α : Type} (w : List α → WriteOutcome) (item : α)
    (s : StoreState α) : StoreState α :=
  saveHistory w ((item :: s.mem).take MAX_HISTORY_ITEMS) s

/-- Under capacity-only write failures, the save loop either clears the
store or succeeds on a nonempty prefix of the candidate list. -/
theorem saveHistoryFuel_spec {α : Type} (w : List α → WriteOutcome)
    (hw : ∀ l, w l ≠ WriteOutcome.otherErr) :
    ∀ fuel (l : List α) (s : StoreState α), l.length ≤ fuel →
      saveHistoryFuel w fuel l s = ⟨[], none⟩ ∨
      ∃ k, 0 < k ∧ k ≤ l.length ∧
        saveHistoryFuel w fuel l s = ⟨l.take k, some (l.take k)⟩ := by
  intro fuel
  induction fuel with
  | zero =>
    intro l s hl
    cases l with
    | nil => exact Or.inl rfl
    | cons a t => simp at hl
  | succ n ih =>
    intro l s hl
    cases l with
    | nil => exact Or.inl rfl
    | cons a t =>
      cases hwk : w (a :: t) with
      | ok =>
        refine Or.inr ⟨(a :: t).length, by simp, le_refl _, ?_⟩
        simp [saveHistoryFuel, hwk, List.take_length]
      | quotaErr =>
        have hstep : saveHistoryFuel w (n + 1) (a :: t) s =
            saveHistoryFuel w n ((a :: t).dropLast) s := by
          simp [saveHistoryFuel, hwk]
        have hlen : ((a :: t).dropLast).length ≤ n := by
          rw [List.length_dropLast]
          simp at hl ⊢
          omega
        rcases ih ((a :: t).dropLast) s hlen with h | ⟨k, hk0, hkle, hres⟩
        · exact Or.inl (by rw [hstep, h])
        · refine Or.inr ⟨k, hk0, ?_, ?_⟩
          · have : ((a :: t).dropLast).length = t.length := by
              rw [List.length_dropLast]; simp
            simp
            omega
          · have hkle2 : k ≤ (a :: t).length - 1 := by
              rw [List.length_dropLast] at hkle
              exact hkle
            have htake : ((a :: t).dropLast).take k = (a :: t).take k := by
              rw [List.dropLast_eq_take, List.take_take]
              congr 1
              omega
            rw [hstep, hres, htake]
      | otherErr => exact absurd hwk (hw _)

/-- C2: with every underlying write failure being a capacity failure,
`addToHistory` (which never throws: the embedding is a total function, all
`setItem` failures being caught inside the loop) leaves at most
`MAX_HISTORY_ITEMS = 10` records in the in-memory history, the new record
is first whenever the resulting history is nonempty (the store having been
cleared in the empty case), and the storage contents agree with the
in-memory view. -/
theorem c2_append_capacity_safe {α : Type} (w : List α → WriteOutcome)
    (hw : ∀ l, w l ≠ WriteOutcome.otherErr) (item : α) (s : StoreState α) :
    (addToHistory w item s).mem.length ≤ MAX_HISTORY_ITEMS ∧
    ((addToHistory w item s).mem ≠ [] →
      (addToHistory w item s).mem.head? = some item) ∧
    ((addToHistory w item s).mem = [] → (addToHistory w item s).stored = none) ∧
    ((addToHistory w item s).mem ≠ [] →
      (addToHistory w item s).stored = some (addToHistory w item s).mem) := by
  have hspec := saveHistoryFuel_spec w hw ((item :: s.mem).take MAX_HISTORY_ITEMS).length
    ((item :: s.mem).take MAX_HISTORY_ITEMS) s (le_refl _)
  have heq : addToHistory w item s =
      saveHistoryFuel w ((item :: s.mem).take MAX_HISTORY_ITEMS).length
        ((item :: s.mem).take MAX_HISTORY_ITEMS) s := rfl
  rcases hspec with h | ⟨k, hk0, hkle, h⟩
  · rw [heq, h]
    simp
  · rw [heq, h]
    have hcons : (item :: s.mem).take MAX_HISTORY_ITEMS =
        item :: s.mem.take (MAX_HISTORY_ITEMS - 1) := by
      simp [MAX_HISTORY_ITEMS]
    obtain ⟨m, rfl⟩ : ∃ m, k = m + 1 := ⟨k - 1, by omega⟩
    refine ⟨?_, ?_, ?_, ?_⟩
    · simp [List.length_take, MAX_HISTORY_ITEMS]
    · intro _
      rw [hcons]
      simp [List.take_succ_cons]
    · intro hmem
      rw [hcons] at hmem
      simp [List.take_succ_cons] at hmem
    · intro _
      rfl

end Spec2Proof

namespace Spec2Proof

/-- A concrete capacity-constrained write behaviour: `setItem` rejects with
a capacity error whenever three or more records are serialized. -/
def c2Writer : List Nat → WriteOutcome :=
  fun l => if 3 ≤ l.length then WriteOutcome.quotaErr else WriteOutcome.ok

theorem c2Writer_no_otherErr : ∀ l, c2Writer l ≠ WriteOutcome.otherErr := by
  intro l
  unfold c2Writer
  split <;> simp

/-- Witness for C2: appending record 9 to a store holding [3, 2, 1] under
`c2Writer` keeps the history within the cap and puts the new record first. -/
theorem c2_append_capacity_safe_witness :
    (addToHistory c2Writer 9 ⟨[3, 2, 1], some [3, 2, 1]⟩).mem.length ≤ MAX_HISTORY_ITEMS ∧
    (addToHistory c2Writer 9 ⟨[3, 2, 1], some [3, 2, 1]⟩).mem.head? = some 9 := by
  have h := c2_append_capacity_safe c2Writer c2Writer_no_otherErr 9 ⟨[3, 2, 1], some [3, 2, 1]⟩
  exact ⟨h.1, h.2.1 (by decide)⟩

/-- Whether the `saveHistory` loop hits a non-capacity persistence error
(the branch of Root.tsx lines 110-114): it runs the same shrinking loop and
reports `true` exactly when some `setItem` attempt ends in `otherErr`. -/
def saveHitsOtherErr {α : Type} (w : List α → WriteOutcome) : Nat → List α → Bool
  | _, [] => false
  | 0, _ :: _ => false
  | fuel+1, a :: t =>
    match w (a :: t) with
    | .ok => false
    | .quotaErr => saveHitsOtherErr w fuel ((a :: t).dropLast)
    | .otherErr => true

/-- If the save loop encounters a non-capacity error, it returns with the
store state (both the in-memory view and the storage contents) untouched. -/
theorem saveHistoryFuel_otherErr {α : Type} (w : List α → WriteOutcome) :
    ∀ fuel (l : List α) (s : StoreState α),
      saveHitsOtherErr w fuel l = true → saveHistoryFuel w fuel l s = s := by
  intro fuel
  induction fuel with
  | zero =>
    intro l s hl
    cases l with
    | nil => simp [saveHitsOtherErr] at hl
    | cons a t => rfl
  | succ n ih =>
    intro l s hl
    cases l with
    | nil => simp [saveHitsOtherErr] at hl
    | cons a t =>
      cases hwk : w (a :: t) with
      | ok => simp [saveHitsOtherErr, hwk] at hl
      | quotaErr =>
        have hl2 : saveHitsOtherErr w n ((a :: t).dropLast) = true := by
          simpa [saveHitsOtherErr, hwk] using hl
        simpa [saveHistoryFuel, hwk] using ih ((a :: t).dropLast) s hl2
      | otherErr => simp [saveHistoryFuel, hwk]

/-- C7: when the persistence attempt of an append fails with an error that
is not capacity-related, the in-memory history view (and the storage
contents) are left exactly as they were before the append: no state update
occurs. -/
theorem c7_other_error_leaves_state (w : List Nat → WriteOutcome) (item : Nat)
    (s : StoreState Nat)
    (h : saveHitsOtherErr w ((item :: s.mem).take MAX_HISTORY_ITEMS).length
          ((item :: s.mem).take MAX_HISTORY_ITEMS) = true) :
    addToHistory w item s = s :=
  saveHistoryFuel_otherErr w _ _ s h

/-- Witness for C7: a writer that always fails with a non-capacity error
leaves a concrete store state untouched. -/
theorem c7_other_error_leaves_state_witness :
    addToHistory (fun _ => WriteOutcome.otherErr) 1 ⟨[2], some [2]⟩ = ⟨[2], some [2]⟩ :=
  c7_other_error_leaves_state (fun _ => WriteOutcome.otherErr) 1 ⟨[2], some [2]⟩ (by decide)

end Spec2Proof

namespace Spec2Proof

/-! ## SessionHistoryStack: pushToSessionHistory / handleUndo / handleRedo
(VoxPage.tsx lines 173-221) -/

/-- One editing snapshot of the undo/redo stack (`SessionState` in
VoxPage.tsx lines 24-27): the image as a (base64, mimeType) pair, or no
image, together with the prompt. -/
structure SessionSnap where
  image : Option (String × String)
  prompt : String
deriving DecidableEq, Repr

/-- The session-history related state of the Vox page: the snapshot array
`sessionHistory`, the cursor `historyIndex` (an integer, `-1` meaning no
current snapshot), and the restored view (`currentImage`, `prompt`). -/
structure VoxSession where
  sessionHistory : List SessionSnap
  historyIndex : Int
  currentImage : Option (String × String)
  prompt : String
deriving DecidableEq, Repr

/-- `MAX_SESSION_HISTORY` (VoxPage.tsx line 14). -/
def MAX_SESSION_HISTORY : Nat := 50

/-- The initial session state: empty stack, `historyIndex = -1`. -/
def initSession : VoxSession :=
  ⟨[], -1, none, ""⟩

/-- Embedding of `pushToSessionHistory` (VoxPage.tsx lines 173-184):
truncate the forward entries (`slice(0, historyIndex + 1)`), append the new
snapshot, and either drop the oldest entry (`shift()`, leaving the cursor
in place) when the cap is exceeded, or advance the cursor. -/
def pushToSessionHistory (st : VoxSession) (image : Option (String × String))
    (currentPrompt : String) : VoxSession :=
  let newState : SessionSnap := ⟨image, currentPrompt⟩
  let newHistory := (st.sessionHistory.take (st.historyIndex + 1).toNat).concat newState
  if MAX_SESSION_HISTORY < newHistory.length then
    { st with sessionHistory := newHistory.drop 1 }
  else
    { st with sessionHistory := newHistory, historyIndex := st.historyIndex + 1 }

/-- Embedding of `handleUndo` (VoxPage.tsx lines 186-205): with the cursor
above 0, step back and restore the previous snapshot; at 0, reset to the
empty document; at -1, do nothing. (Reading past the array, which the
cursor invariant of the component rules out, is embedded as moving the
cursor without restoring anything; the source would fail there.) -/
def handleUndo (st : VoxSession) : VoxSession :=
  if 0 < st.historyIndex then
    match st.sessionHistory.get? (st.historyIndex - 1).toNat with
    | some prevState =>
      { st with historyIndex := st.historyIndex - 1,
                currentImage := prevState.image,
                prompt := prevState.prompt }
    | none => { st with historyIndex := st.historyIndex - 1 }
  else if st.historyIndex = 0 then
    { st with historyIndex := -1, currentImage := none, prompt := "" }
  else st

/-- Embedding of `handleRedo` (VoxPage.tsx lines 207-221): with the cursor
strictly before the tail, step forward and restore the next snapshot;
otherwise do nothing. -/
def handleRedo (st : VoxSession) : VoxSession :=
  if st.historyIndex < (st.sessionHistory.length : Int) - 1 then
    match st.sessionHistory.get? (st.historyIndex + 1).toNat with
    | some nextState =>
      { st with historyIndex := st.historyIndex + 1,
                currentImage := nextState.image,
                prompt := nextState.prompt }
    | none => { st with historyIndex := st.historyIndex + 1 }
  else st

/-- A sequence of pushes (each element giving the image and prompt pushed),
applied left to right. -/
def pushSeq (st : VoxSession) : List (Option (String × String) × String) → VoxSession
  | [] => st
  | (img, p) :: rest => pushSeq (pushToSessionHistory st img p) rest

end Spec2Proof

namespace Spec2Proof

/-- `handleUndo` never touches the stored snapshot array. -/
theorem handleUndo_sessionHistory (st : VoxSession) :
    (handleUndo st).sessionHistory = st.sessionHistory := by
  unfold handleUndo
  repeat' split
  all_goals rfl

/-- `handleRedo` never touches the stored snapshot array. -/
theorem handleRedo_sessionHistory (st : VoxSession) :
    (handleRedo st).sessionHistory = st.sessionHistory := by
  unfold handleRedo
  repeat' split
  all_goals rfl

/-- Effect of one push on a state whose cursor sits at the end of the
stack: the length becomes `min (m+1) 50` and the cursor stays at the end. -/
theorem pushToSessionHistory_at_end (st : VoxSession) (img : Option (String × String))
    (p : String) (m : Nat) (hm : m ≤ MAX_SESSION_HISTORY)
    (hlen : st.sessionHistory.length = m) (hidx : st.historyIndex = (m : Int) - 1) :
    (pushToSessionHistory st img p).sessionHistory.length =
      min (m + 1) MAX_SESSION_HISTORY ∧
    (pushToSessionHistory st img p).historyIndex =
      ((min (m + 1) MAX_SESSION_HISTORY : Nat) : Int) - 1 := by
  unfold pushToSessionHistory
  have ht : (st.historyIndex + 1).toNat = m := by omega
  rw [ht]
  have htake : st.sessionHistory.take m = st.sessionHistory := by
    rw [← hlen]
    exact List.take_length st.sessionHistory
  rw [htake]
  by_cases hcap : MAX_SESSION_HISTORY < (st.sessionHistory.concat ⟨img, p⟩).length
  · rw [if_pos hcap]
    have hlc : (st.sessionHistory.concat ⟨img, p⟩).length = m + 1 := by
      rw [List.length_concat, hlen]
    constructor
    · simp only [List.length_drop, hlc]
      omega
    · simp only [hidx]
      rw [hlc] at hcap
      omega
  · rw [if_neg hcap]
    have hlc : (st.sessionHistory.concat ⟨img, p⟩).length = m + 1 := by
      rw [List.length_concat, hlen]
    constructor
    · simp only [hlc]
      omega
    · simp only [hidx]
      rw [hlc] at hcap
      omega

/-- After any sequence of pushes from a cursor-at-end state, the stack
length is capped at `MAX_SESSION_HISTORY` and the cursor is at the end. -/
theorem pushSeq_spec : ∀ (L : List (Option (String × String) × String))
    (st : VoxSession) (m : Nat), m ≤ MAX_SESSION_HISTORY →
    st.sessionHistory.length = m → st.historyIndex = (m : Int) - 1 →
    (pushSeq st L).sessionHistory.length = min (m + L.length) MAX_SESSION_HISTORY ∧
    (pushSeq st L).historyIndex =
      ((min (m + L.length) MAX_SESSION_HISTORY : Nat) : Int) - 1 := by
  intro L
  induction L with
  | nil =>
    intro st m hm hlen hidx
    constructor
    · simpa [pushSeq] using by omega
    · simp only [pushSeq, List.length_nil]
      rw [hidx]
      omega
  | cons hd tl ih =>
    intro st m hm hlen hidx
    obtain ⟨img, p⟩ := hd
    have hpush := pushToSessionHistory_at_end st img p m hm hlen hidx
    have hm2 : min (m + 1) MAX_SESSION_HISTORY ≤ MAX_SESSION_HISTORY := by omega
    have := ih (pushToSessionHistory st img p) (min (m + 1) MAX_SESSION_HISTORY)
      hm2 hpush.1 hpush.2
    constructor
    · rw [show pushSeq st ((img, p) :: tl) = pushSeq (pushToSessionHistory st img p) tl from rfl]
      rw [this.1]
      simp only [List.length_cons]
      omega
    · rw [show pushSeq st ((img, p) :: tl) = pushSeq (pushToSessionHistory st img p) tl from rfl]
      rw [this.2]
      simp only [List.length_cons]
      congr 1
      omega

/-- Iterating `handleUndo` from a cursor at offset `m - 1` with `m` valid
entries steps the cursor down by one each time. -/
theorem handleUndo_iterate : ∀ (j : Nat) (st : VoxSession) (m : Nat),
    st.historyIndex = (m : Int) - 1 → m ≤ st.sessionHistory.length → j ≤ m →
    (handleUndo^[j] st).historyIndex = (m : Int) - 1 - j := by
  intro j
  induction j with
  | zero =>
    intro st m hidx hm hj
    simpa using hidx
  | succ n ih =>
    intro st m hidx hm hj
    rw [Function.iterate_succ_apply]
    match m, hj with
    | m' + 1, _ =>
      have hhist : (handleUndo st).sessionHistory = st.sessionHistory :=
        handleUndo_sessionHistory st
      have hstep : (handleUndo st).historyIndex = (m' : Int) - 1 := by
        unfold handleUndo
        by_cases h0 : (0 : Int) < st.historyIndex
        · rw [if_pos h0]
          have hm' : 1 ≤ m' := by omega
          have ht : (st.historyIndex - 1).toNat = m' - 1 := by omega
          rw [ht]
          cases hget : st.sessionHistory.get? (m' - 1) with
          | none => simp only []; omega
          | some prevState => simp only []; omega
        · rw [if_neg h0]
          have hm0 : m' = 0 := by omega
          have hidx0 : st.historyIndex = 0 := by omega
          rw [if_pos hidx0]
          simp only []
          omega
      have := ih (handleUndo st) m' hstep (by rw [hhist]; omega) (by omega)
      rw [this]
      omega

end Spec2Proof

namespace Spec2Proof

/-- C3 counterexample: after a single push onto the empty session stack,
a single undo already reaches the Empty state (`historyIndex = -1`), so the
claimed count of `min(k, 50) + 1 = 2` undo steps is wrong at `k = 1`. -/
theorem c3_counterexample :
    (handleUndo (pushSeq initSession [(none, "a")])).historyIndex = -1 ∧
    (1 : Nat) ≠ min 1 MAX_SESSION_HISTORY + 1 := by
  decide

/-- C3 (amended): for every sequence of `k` pushes starting from the empty
session stack with no intervening undo/redo, the stored stack length is
exactly `min k 50` (in particular it never exceeds `MAX_SESSION_HISTORY =
50`), and running undo back-to-back reaches the Empty state
(`historyIndex = -1`) in exactly `min k 50` steps: it is Empty after
`min k 50` undos and not Empty after any smaller number of undos. -/
theorem c3_push_undo_counts (L : List (Option (String × String) × String)) :
    (pushSeq initSession L).sessionHistory.length =
      min L.length MAX_SESSION_HISTORY ∧
    (pushSeq initSession L).sessionHistory.length ≤ MAX_SESSION_HISTORY ∧
    (handleUndo^[min L.length MAX_SESSION_HISTORY]
        (pushSeq initSession L)).historyIndex = -1 ∧
    (∀ j, j < min L.length MAX_SESSION_HISTORY →
      (handleUndo^[j] (pushSeq initSession L)).historyIndex ≠ -1) := by
  have hbase := pushSeq_spec L initSession 0 (by omega) rfl rfl
  simp only [Nat.zero_add] at hbase
  have hiter := handleUndo_iterate (min L.length MAX_SESSION_HISTORY)
    (pushSeq initSession L) (min L.length MAX_SESSION_HISTORY)
    hbase.2 (le_of_eq hbase.1.symm) (le_refl _)
  refine ⟨hbase.1, by omega, by rw [hiter]; omega, ?_⟩
  intro j hj
  have := handleUndo_iterate j (pushSeq initSession L)
    (min L.length MAX_SESSION_HISTORY)
    hbase.2 (le_of_eq hbase.1.symm) (by omega)
  rw [this]
  omega

/-- Witness for C3 (amended): with two pushes, one undo does not yet reach
the Empty state. -/
theorem c3_push_undo_counts_witness :
    (handleUndo^[1] (pushSeq initSession [(none, "a"), (none, "b")])).historyIndex ≠ -1 :=
  (c3_push_undo_counts [(none, "a"), (none, "b")]).2.2.2 1 (by decide)

/-- C6: from any session state whose cursor `i ≥ 1` points into the stack,
undo followed by redo restores exactly the snapshot (image and prompt) that
was current before the undo, returns the cursor to `i`, and neither undo
nor redo mutates any stored snapshot (the stack itself is preserved by
every undo and every redo, on every state). -/
theorem c6_undo_redo_roundtrip (st : VoxSession) (h1 : 1 ≤ st.historyIndex)
    (h2 : st.historyIndex < (st.sessionHistory.length : Int)) :
    (handleRedo (handleUndo st)).historyIndex = st.historyIndex ∧
    (∃ snap, st.sessionHistory.get? st.historyIndex.toNat = some snap ∧
      (handleRedo (handleUndo st)).currentImage = snap.image ∧
      (handleRedo (handleUndo st)).prompt = snap.prompt) ∧
    (∀ u : VoxSession, (handleUndo u).sessionHistory = u.sessionHistory ∧
      (handleRedo u).sessionHistory = u.sessionHistory) := by
  obtain ⟨m, hm⟩ : ∃ m : Nat, st.historyIndex = (m : Int) + 1 :=
    ⟨(st.historyIndex - 1).toNat, by omega⟩
  have hmlt : m + 1 < st.sessionHistory.length := by omega
  obtain ⟨prev, hprev⟩ : ∃ p, st.sessionHistory.get? m = some p := by
    rw [List.get?_eq_get (by omega)]
    exact ⟨_, rfl⟩
  obtain ⟨cur, hcur⟩ : ∃ p, st.sessionHistory.get? (m + 1) = some p := by
    rw [List.get?_eq_get hmlt]
    exact ⟨_, rfl⟩
  have hcond1 : (0 : Int) < st.historyIndex := by omega
  have ht1 : (st.historyIndex - 1).toNat = m := by omega
  have hundo : handleUndo st =
      ⟨st.sessionHistory, st.historyIndex - 1, prev.image, prev.prompt⟩ := by
    unfold handleUndo
    rw [if_pos hcond1, ht1, hprev]
  have hcond2 : st.historyIndex - 1 < (st.sessionHistory.length : Int) - 1 := by omega
  have ht2 : (st.historyIndex - 1 + 1).toNat = m + 1 := by omega
  have hredo : handleRedo ⟨st.sessionHistory, st.historyIndex - 1, prev.image, prev.prompt⟩ =
      ⟨st.sessionHistory, st.historyIndex, cur.image, cur.prompt⟩ := by
    unfold handleRedo
    simp only
    rw [if_pos hcond2, ht2, hcur]
    simp only
    have : st.historyIndex - 1 + 1 = st.historyIndex := by omega
    rw [this]
  have ht3 : st.historyIndex.toNat = m + 1 := by omega
  refine ⟨?_, ⟨cur, ?_, ?_, ?_⟩, ?_⟩
  · rw [hundo, hredo]
  · rw [ht3]
    exact hcur
  · rw [hundo, hredo]
  · rw [hundo, hredo]
  · intro u
    exact ⟨handleUndo_sessionHistory u, handleRedo_sessionHistory u⟩

/-- A concrete session state for the C6 witness: two snapshots, cursor at 1. -/
def c6State : VoxSession :=
  ⟨[⟨none, "p0"⟩, ⟨some ("img1", "image/png"), "p1"⟩], 1,
   some ("img1", "image/png"), "p1"⟩

/-- Witness for C6: undo then redo on `c6State` returns the cursor to 1 and
restores snapshot 1. -/
theorem c6_undo_redo_roundtrip_witness :
    (handleRedo (handleUndo c6State)).historyIndex = c6State.historyIndex ∧
    (∃ snap, c6State.sessionHistory.get? c6State.historyIndex.toNat = some snap ∧
      (handleRedo (handleUndo c6State)).currentImage = snap.image ∧
      (handleRedo (handleUndo c6State)).prompt = snap.prompt) :=
  ⟨(c6_undo_redo_roundtrip c6State (by decide) (by decide)).1,
   (c6_undo_redo_roundtrip c6State (by decide) (by decide)).2.1⟩

end Spec2Proof

namespace Spec2Proof

/-! ## RequestRouter: handleGenerate (VoxPage.tsx lines 292-357) -/

/-- Whitespace test for the embedding of JavaScript `String.prototype.trim`. -/
def isJsWhitespace (c : Char) : Bool :=
  c = ' ' || c = '\t' || c = '\n' || c = '\r'

/-- Embedding of JavaScript `trim()`: strip leading and trailing whitespace. -/
def jsTrim (s : String) : String :=
  ⟨((s.data.dropWhile isJsWhitespace).reverse.dropWhile isJsWhitespace).reverse⟩

/-- Does the character list `needle` occur at the start of `hay`? -/
def startsWithSeq : List Char → List Char → Bool
  | [], _ => true
  | _ :: _, [] => false
  | p :: ps, c :: cs => (p = c) && startsWithSeq ps cs

/-- Does the character list `needle` occur anywhere inside `hay`? -/
def containsSeq (needle : List Char) : List Char → Bool
  | [] => startsWithSeq needle []
  | c :: cs => startsWithSeq needle (c :: cs) || containsSeq needle cs

/-- Embedding of JavaScript `toLowerCase()` on the character data. -/
def lowerString (s : String) : String :=
  ⟨s.data.map Char.toLower⟩

/-- Merge intent as the spec describes it (substring match on the free
text, presence of "combine"/"merge" after lowercasing, as in the chat-side
router of Header.tsx line 334). The Vox-page router under verification does
not consult this predicate. -/
def impliesMergeIntent (instruction : String) : Bool :=
  containsSeq "combine".data (lowerString instruction).data ||
  containsSeq "merge".data (lowerString instruction).data

/-- The operation selected by `handleGenerate`. -/
inductive Route where
  | noAction
  | combine
  | inpaint
  | edit
  | generate
deriving DecidableEq, Repr

/-- Embedding of the routing decision of `handleGenerate` (VoxPage.tsx
lines 292-332): a blank prompt returns without doing anything; then, first
match wins: more than one staged input image selects combine; inpainting
mode with a current image and a mask canvas selects inpaint; a current
image selects edit; otherwise text-to-image generation. -/
def routeGenerate (prompt : String) (numStagedImages : Nat) (inpaintingMode : Bool)
    (hasCurrentImage : Bool) (hasMaskCanvas : Bool) : Route :=
  if jsTrim prompt = "" then .noAction
  else if 1 < numStagedImages then .combine
  else if inpaintingMode && hasCurrentImage && hasMaskCanvas then .inpaint
  else if hasCurrentImage then .edit
  else .generate

/-- C4 counterexample: with two staged images and the instruction "a cat",
which implies no merge intent, the router still selects combine — so
combine is not selected "exactly when at least two input images are staged
AND the instruction implies a merge intent". -/
theorem c4_counterexample :
    routeGenerate "a cat" 2 false false false = Route.combine ∧
    impliesMergeIntent "a cat" = false := by
  decide

/-- C4 (amended): the router selects combine exactly when the instruction
is non-blank and at least two input images are staged, independently of the
instruction text (no merge-intent check); the rule is checked before the
inpaint, edit and generate rules, first match wins. -/
theorem c4_combine_route (p : String) (n : Nat) (ipm hci hmc : Bool) :
    routeGenerate p n ipm hci hmc = Route.combine ↔ (¬ jsTrim p = "" ∧ 2 ≤ n) := by
  unfold routeGenerate
  by_cases h1 : jsTrim p = ""
  · simp [h1]
  · by_cases h2 : 1 < n
    · simp [h1, h2]
      omega
    · have hn : ¬ (2 ≤ n) := by omega
      simp [h1, h2, hn]
      split
      · simp
      · split <;> simp

/-- Witness for C4 (amended): a non-blank instruction with three staged
images routes to combine even though the inpaint and edit conditions hold
as well. -/
theorem c4_combine_route_witness :
    routeGenerate "a dog" 3 true true true = Route.combine :=
  (c4_combine_route "a dog" 3 true true true).mpr ⟨by decide, by decide⟩

end Spec2Proof

namespace Spec2Proof

/-! ## QuotaManager: handleGenerateVideo quota gate (VoxPage.tsx lines 427-479) -/

/-- The video quota state: the in-memory `videoQuota` React state and the
persisted `vox_video_quota` storage value (kept in sync by `updateQuota`,
VoxPage.tsx lines 100-103). -/
structure VideoQuotaState where
  videoQuota : Int
  stored : Int
deriving DecidableEq, Repr

/-- Observable events of one `handleGenerateVideo` run that matter to the
quota contract: persisting a new quota value, and starting the gated remote
video generation. -/
inductive VideoEvent where
  | persistQuota (v : Int)
  | remoteVideoCall
deriving DecidableEq, Repr

/-- Embedding of the quota-relevant control flow of `handleGenerateVideo`
(VoxPage.tsx lines 427-479): bail out without an error if no current image
is loaded; report quota exhaustion without touching state when
`videoQuota <= 0`; otherwise deduct one unit and persist it
(`updateQuota(videoQuota - 1)`) before the remote `generateVideo` call, and
do not refund it when the call fails (the source deliberately keeps strict
consumption). Returns (quota consumed?, surfaced error, new state, events
in order). -/
def handleGenerateVideo (hasCurrentImage : Bool) (callFails : Bool)
    (s : VideoQuotaState) : Bool × Option String × VideoQuotaState × List VideoEvent :=
  if !hasCurrentImage then (false, none, s, [])
  else if s.videoQuota ≤ 0 then
    (false, some "Daily video quota exceeded. Please add tokens.", s, [])
  else
    (true,
     if callFails then some "generation failed" else none,
     ⟨s.videoQuota - 1, s.videoQuota - 1⟩,
     [.persistQuota (s.videoQuota - 1), .remoteVideoCall])

/-- A run of consecutive `handleGenerateVideo` attempts, collecting whether
each attempt consumed a quota unit. -/
def consumeAttempts (hasCurrentImage : Bool) (callFails : Bool) :
    Nat → VideoQuotaState → List Bool × VideoQuotaState
  | 0, s => ([], s)
  | n + 1, s =>
    let r := handleGenerateVideo hasCurrentImage callFails s
    let rest := consumeAttempts hasCurrentImage callFails n r.2.2.1
    (r.1 :: rest.1, rest.2)

/-- C5: with `remaining <= 0` a consume attempt reports failure and leaves
both the in-memory and the persisted quota unchanged with no remote call;
with `remaining > 0` it deducts exactly one unit, persists the new value
before the gated remote call begins (the persist event precedes the remote
call event), and does not refund on failure (the result state does not
depend on `callFails`); and from `remaining = 2`, three consecutive
attempts yield [true, true, false] with final remaining 0. -/
theorem c5_quota_consume (s : VideoQuotaState) (callFails : Bool) :
    (s.videoQuota ≤ 0 →
      handleGenerateVideo true callFails s =
        (false, some "Daily video quota exceeded. Please add tokens.", s, [])) ∧
    (0 < s.videoQuota →
      handleGenerateVideo true callFails s =
        (true, if callFails then some "generation failed" else none,
         ⟨s.videoQuota - 1, s.videoQuota - 1⟩,
         [VideoEvent.persistQuota (s.videoQuota - 1), VideoEvent.remoteVideoCall])) ∧
    consumeAttempts true callFails 3 ⟨2, 2⟩ = ([true, true, false], ⟨0, 0⟩) := by
  refine ⟨?_, ?_, ?_⟩
  · intro h
    simp [handleGenerateVideo, h]
  · intro h
    have h2 : ¬ s.videoQuota ≤ 0 := by omega
    simp [handleGenerateVideo, h2]
  · cases callFails <;> decide

/-- Witness for C5: a single consume from remaining 1 deducts to 0 with the
persist event before the remote call, and a consume from remaining 0 fails
without state change. -/
theorem c5_quota_consume_witness :
    handleGenerateVideo true false ⟨1, 1⟩ =
      (true, none, ⟨0, 0⟩,
       [VideoEvent.persistQuota 0, VideoEvent.remoteVideoCall]) ∧
    handleGenerateVideo true false ⟨0, 0⟩ =
      (false, some "Daily video quota exceeded. Please add tokens.", ⟨0, 0⟩, []) :=
  ⟨(c5_quota_consume ⟨1, 1⟩ false).2.1 (by decide),
   (c5_quota_consume ⟨0, 0⟩ false).1 (by decide)⟩

end Spec2Proof

namespace Spec2Proof

/-! ## LongRunningJobPoller: generateVideo poll loop (part_000 lines 1428-1508) -/

/-- Terminal outcome of the `generateVideo` poll loop. -/
inductive PollOutcome where
  | cancelledErr
  | fetched
  | noLink
  | outOfFuel
deriving DecidableEq, Repr

/-- Result of a poll-loop run: the outcome, the number of
`getVideosOperation` poll calls made, and whether the final artifact was
fetched. -/
structure PollRun where
  outcome : PollOutcome
  polls : Nat
  fetchAttempted : Bool
deriving DecidableEq, Repr

/-- Embedding of the poll loop of `generateVideo` (part_000 lines
1471-1502). `cancel k` is the value of the shared cancellation flag when it
is inspected after `k` polls; `done k` is `operation.done` after `k` polls
(`done 0` being the state right after submission); `hasLink` is whether the
completed operation carries a download link. Per iteration the source
checks `operation.done`, then the cancellation flag (throwing the
cancellation error before any further network call), then sleeps and polls;
after the loop it re-checks the flag once more before fetching the
artifact. The fuel bounds the number of iterations of a loop that the
source itself does not bound. -/
def generateVideoLoop (cancel done : Nat → Bool) (hasLink : Bool) :
    Nat → Nat → PollRun
  | 0, k =>
    if done k then
      if cancel k then ⟨.cancelledErr, k, false⟩
      else if hasLink then ⟨.fetched, k, true⟩
      else ⟨.noLink, k, false⟩
    else if cancel k then ⟨.cancelledErr, k, false⟩
    else ⟨.outOfFuel, k, false⟩
  | fuel + 1, k =>
    if done k then
      if cancel k then ⟨.cancelledErr, k, false⟩
      else if hasLink then ⟨.fetched, k, true⟩
      else ⟨.noLink, k, false⟩
    else if cancel k then ⟨.cancelledErr, k, false⟩
    else generateVideoLoop cancel done hasLink fuel (k + 1)

/-- A full `generateVideo` run starts with zero polls performed. -/
def generateVideoRun (cancel done : Nat → Bool) (hasLink : Bool) (fuel : Nat) : PollRun :=
  generateVideoLoop cancel done hasLink fuel 0

/-- Every poll call is preceded by a cancellation check at the current poll
count: if the run made more than `i` polls, the flag was observed unset at
check `i`. -/
theorem generateVideoLoop_checks (cancel done : Nat → Bool) (hasLink : Bool) :
    ∀ (fuel k i : Nat), k ≤ i →
      i < (generateVideoLoop cancel done hasLink fuel k).polls →
      cancel i = false := by
  intro fuel
  induction fuel with
  | zero =>
    intro k i hki hlt
    unfold generateVideoLoop at hlt
    by_cases hd : done k
    · by_cases hc : cancel k
      · simp [hd, hc] at hlt
        omega
      · by_cases hl : hasLink = true <;> simp [hd, hc, hl] at hlt <;> omega
    · by_cases hc : cancel k <;> simp [hd, hc] at hlt <;> omega
  | succ n ih =>
    intro k i hki hlt
    unfold generateVideoLoop at hlt
    by_cases hd : done k
    · by_cases hc : cancel k
      · simp [hd, hc] at hlt
        omega
      · by_cases hl : hasLink = true <;> simp [hd, hc, hl] at hlt <;> omega
    · by_cases hc : cancel k
      · simp [hd, hc] at hlt
        omega
      · simp [hd, hc] at hlt
        rcases Nat.eq_or_lt_of_le hki with h | h
        · exact h ▸ Bool.eq_false_iff.mpr hc
        · exact ih (k + 1) i h hlt

/-- C8: if the shared cancellation flag is already set before the first
poll tick, the video run terminates with the cancellation error, makes no
poll call and never fetches the final artifact; and in general the
cancellation flag is checked before any further poll call: every poll the
run makes was preceded by a check observing the flag unset. -/
theorem c8_cancellation (cancel done : Nat → Bool) (hasLink : Bool) (fuel : Nat) :
    (cancel 0 = true →
      generateVideoRun cancel done hasLink fuel = ⟨PollOutcome.cancelledErr, 0, false⟩) ∧
    (∀ i, i < (generateVideoRun cancel done hasLink fuel).polls → cancel i = false) := by
  constructor
  · intro hc
    unfold generateVideoRun
    cases fuel <;> unfold generateVideoLoop <;> by_cases hd : done 0 <;> simp [hd, hc]
  · intro i hlt
    exact generateVideoLoop_checks cancel done hasLink fuel 0 i (Nat.zero_le i) hlt

/-- Witness for C8: with the flag set from the start, a run that would
otherwise complete and fetch is cancelled with zero polls and no fetch. -/
theorem c8_cancellation_witness :
    generateVideoRun (fun _ => true) (fun _ => false) true 5 =
      ⟨PollOutcome.cancelledErr, 0, false⟩ :=
  (c8_cancellation (fun _ => true) (fun _ => false) true 5).1 rfl

end Spec2Proof

namespace Spec2Proof

/-! ## combineImages (part_000 lines 1206-1267) and the multi-image tray
(VoxPage.tsx lines 481-525) -/

/-- Embedding of `parseGeminiError` (part_000 lines 771-815) on an error
message string: the substring and startsWith patterns of the source, tested
in order (the lowercased message where the source uses `lowerMessage`),
falling through to the "An unexpected API error occurred: " wrap. -/
def parseGeminiError (message : String) : String :=
  if containsSeq "Requested entity was not found.".data message.data then
    "The requested AI model is not available with your current API key. Please ensure your key has access to Gemini 3.0 Preview models."
  else if containsSeq "does not have permission".data message.data
      || containsSeq "PERMISSION_DENIED".data message.data then
    "Permission denied. Your API key does not have access to this model. Please select a different key or check your Google Cloud project permissions."
  else if containsSeq "xhr error".data (lowerString message).data
      || containsSeq "network error".data (lowerString message).data
      || containsSeq "failed to fetch".data (lowerString message).data then
    "A network connection error occurred. Please check your internet connection and try again. The API service may be temporarily unavailable."
  else if startsWithSeq "Model refusal:".data message.data then
    message
  else if containsSeq "safety policies".data (lowerString message).data
      || containsSeq "blocked".data (lowerString message).data then
    "Your request was blocked due to safety policies. Please adjust your prompt and try again."
  else if containsSeq "api key not valid".data (lowerString message).data then
    "The provided API key is invalid. Please ensure it is configured correctly."
  else if containsSeq "quota".data (lowerString message).data then
    "API quota exceeded. Please check your usage and limits."
  else if containsSeq "resource has been exhausted".data (lowerString message).data
      || containsSeq "rate limit".data (lowerString message).data then
    "The server is busy or you have hit a rate limit. Please try again in a moment."
  else "An unexpected API error occurred: " ++ message

/-- Embedding of `combineImages` (part_000 lines 1206-1267) around an
abstracted remote step: with fewer than 2 or more than 6 images the guard
throws "Combining requires 2 to 6 images." before any resize or remote
request; otherwise the remote call runs once. Every error thrown inside the
body — the guard error included — is caught by the function's catch block
and rethrown as `new Error(parseGeminiError(error))`. Returns the result
and the number of remote calls made. -/
def combineImagesCall {α : Type} (images : List α)
    (remote : List α → Except String (List String)) :
    Except String (List String) × Nat :=
  if images.length < 2 || 6 < images.length then
    (Except.error (parseGeminiError "Combining requires 2 to 6 images."), 0)
  else
    match remote images with
    | Except.ok r => (Except.ok r, 1)
    | Except.error e => (Except.error (parseGeminiError e), 1)

/-- One tray mutation: a file upload (`handleFileUpload`) or a removal from
the tray (`handleRemoveFromTray`). -/
inductive TrayOp (α : Type) where
  | upload (files : List α)
  | remove (i : Nat)

/-- Embedding of `handleFileUpload` (VoxPage.tsx lines 481-521) restricted
to its effect on the `inputImages` tray: no files is a no-op; a single file
with an empty tray goes to the single-image flow (the tray is untouched);
otherwise the new images are appended and the tray is capped at 6
(`slice(0, 6)`), silently dropping anything beyond. -/
def handleFileUpload {α : Type} (tray : List α) (files : List α) : List α :=
  if files.isEmpty then tray
  else if files.length == 1 && tray.isEmpty then tray
  else (tray ++ files).take 6

/-- Embedding of `handleRemoveFromTray` (VoxPage.tsx lines 523-525):
filter out the element at the given position. -/
def handleRemoveFromTray {α : Type} (tray : List α) (i : Nat) : List α :=
  ((tray.enum.filter fun p => p.1 ≠ i).map Prod.snd)

/-- Running a sequence of tray operations, left to right. -/
def runTrayOps {α : Type} : List (TrayOp α) → List α → List α
  | [], t => t
  | .upload fs :: rest, t => runTrayOps rest (handleFileUpload t fs)
  | .remove i :: rest, t => runTrayOps rest (handleRemoveFromTray t i)

/-- The filter-based removal never lengthens the tray. -/
theorem handleRemoveFromTray_length_le {α : Type} (tray : List α) (i : Nat) :
    (handleRemoveFromTray tray i).length ≤ tray.length := by
  unfold handleRemoveFromTray
  calc ((tray.enum.filter fun p => p.1 ≠ i).map Prod.snd).length
      = (tray.enum.filter fun p => p.1 ≠ i).length := List.length_map _ _
    _ ≤ tray.enum.length := List.length_filter_le _ _
    _ = tray.length := List.enum_length

/-- Any sequence of uploads and removals keeps the tray within 6 images. -/
theorem runTrayOps_le_six {α : Type} :
    ∀ (ops : List (TrayOp α)) (t : List α), t.length ≤ 6 →
      (runTrayOps ops t).length ≤ 6 := by
  intro ops
  induction ops with
  | nil => intro t ht; exact ht
  | cons op rest ih =>
    intro t ht
    cases op with
    | upload fs =>
      refine ih (handleFileUpload t fs) ?_
      unfold handleFileUpload
      split
      · exact ht
      · split
        · exact ht
        · simp
    | remove i =>
      exact ih (handleRemoveFromTray t i)
        (le_trans (handleRemoveFromTray_length_le t i) ht)

/-- C9 counterexample: with seven images, `combineImages` does not surface
the bare guard message "Combining requires 2 to 6 images.": its catch block
re-wraps the guard error through `parseGeminiError`, which matches none of
its rewrite patterns for this message and so prepends "An unexpected API
error occurred: ". -/
theorem c9_counterexample :
    combineImagesCall [1, 2, 3, 4, 5, 6, 7] (fun _ => Except.ok ["r"]) ≠
      (Except.error "Combining requires 2 to 6 images.", 0) := by
  intro hcontra
  have h1 : combineImagesCall [1, 2, 3, 4, 5, 6, 7] (fun _ => Except.ok ["r"]) =
      (Except.error "An unexpected API error occurred: Combining requires 2 to 6 images.", 0) :=
    rfl
  rw [h1] at hcontra
  have h2 : ("An unexpected API error occurred: Combining requires 2 to 6 images." : String) =
      "Combining requires 2 to 6 images." := by
    simpa using congrArg Prod.fst hcontra
  exact absurd h2 (by decide)

/-- C9 (amended): `combineImages` rejects any list of fewer than 2 or more
than 6 images with zero remote calls, whatever the remote behaviour,
surfacing an error whose message is the guard message "Combining requires 2
to 6 images." as re-wrapped by `parseGeminiError` in the catch block, i.e.
"An unexpected API error occurred: Combining requires 2 to 6 images."; and
the staged tray, starting empty, never exceeds 6 images under any sequence
of uploads and removals (additions beyond 6 being silently dropped by the
`slice(0, 6)` cap). -/
theorem c9_combine_guard_and_tray {α : Type}
    (images : List α) (remote : List α → Except String (List String))
    (h : images.length < 2 ∨ 6 < images.length) :
    combineImagesCall images remote =
      (Except.error "An unexpected API error occurred: Combining requires 2 to 6 images.", 0) ∧
    (∀ ops : List (TrayOp α), (runTrayOps ops []).length ≤ 6) := by
  constructor
  · unfold combineImagesCall
    have hguard : (images.length < 2 || 6 < images.length) = true := by
      rcases h with h | h <;> simp <;> omega
    rw [if_pos hguard]
    have hmsg : parseGeminiError "Combining requires 2 to 6 images." =
        "An unexpected API error occurred: Combining requires 2 to 6 images." := by
      decide
    rw [hmsg]
  · intro ops
    exact runTrayOps_le_six ops [] (by simp)

/-- Witness for C9 (amended): a seven-image list is rejected without a
remote call, with the wrapped error message (for a remote behaviour that
would otherwise succeed). -/
theorem c9_combine_guard_and_tray_witness :
    combineImagesCall [1, 2, 3, 4, 5, 6, 7] (fun _ => Except.ok ["r"]) =
      (Except.error "An unexpected API error occurred: Combining requires 2 to 6 images.", 0) :=
  (c9_combine_guard_and_tray [1, 2, 3, 4, 5, 6, 7] (fun _ => Except.ok ["r"])
    (Or.inr (by decide))).1

end Spec2Proof

namespace Spec2Proof

/-! ## generateImagesFromPrompt (part_000 lines 1030-1082) -/

/-- One part of the model response: an inline image payload with its mime
type, or text. -/
inductive RespPart where
  | inlineData (mimeType : String) (data : String)
  | text (t : String)
deriving DecidableEq, Repr

/-- The data-URL images collected from the response parts, in order
(part_000 lines 1058-1068). -/
def extractImages (parts : List RespPart) : List String :=
  parts.filterMap fun p =>
    match p with
    | .inlineData m d => some ("data:" ++ m ++ ";base64," ++ d)
    | .text _ => none

/-- The concatenated refusal text of the response parts, `none` when there
is no text part. -/
def extractRefusal (parts : List RespPart) : Option String :=
  parts.foldl
    (fun acc p =>
      match p with
      | .text t => some (acc.getD "" ++ t)
      | .inlineData _ _ => acc)
    none

/-- Embedding of the response handling of `generateImagesFromPrompt`
(part_000 lines 1030-1082): the used seed is the caller-supplied seed when
present, else the freshly drawn random seed; with no image part the call
fails (with the refusal text when there is one); otherwise only the first
image payload is kept, paired with the used seed. `numberOfImages` is
carried in the settings but, as in the source, never consulted. -/
def generateImagesFromPrompt (numberOfImages : Nat) (parts : List RespPart)
    (seed : Option Nat) (randomSeed : Nat) :
    Except String (List String × Nat) :=
  let usedSeed := seed.getD randomSeed
  let _ := numberOfImages
  match extractImages parts with
  | [] =>
    match extractRefusal parts with
    | some refusalText => .error ("Model refusal: " ++ refusalText)
    | none => .error "VX-0 (Gemini 3 Pro): The model did not return an image. This might be due to safety policies."
  | img :: _ => .ok ([img], usedSeed)

/-- C10: every successful `generateImagesFromPrompt` call returns exactly
one image — the first payload of the response — for every value of
`numberOfImages`, and the returned seed equals the caller-supplied seed
when one was provided (and the drawn random seed otherwise). -/
theorem c10_single_image_and_seed (numberOfImages : Nat) (parts : List RespPart)
    (seed : Option Nat) (randomSeed : Nat) (imgs : List String) (s : Nat)
    (h : generateImagesFromPrompt numberOfImages parts seed randomSeed =
      Except.ok (imgs, s)) :
    imgs.length = 1 ∧
    imgs = (extractImages parts).take 1 ∧
    s = seed.getD randomSeed ∧
    (∀ v, seed = some v → s = v) := by
  unfold generateImagesFromPrompt at h
  cases himg : extractImages parts with
  | nil =>
    rw [himg] at h
    cases href : extractRefusal parts with
    | none => rw [href] at h; exact absurd h (by simp)
    | some r => rw [href] at h; exact absurd h (by simp)
  | cons img rest =>
    rw [himg] at h
    simp only [Except.ok.injEq, Prod.mk.injEq] at h
    obtain ⟨h1, h2⟩ := h
    refine ⟨by rw [← h1]; rfl, by rw [← h1]; rfl, h2.symm, ?_⟩
    intro v hv
    rw [← h2, hv]
    rfl

/-- Witness for C10: a response with two image parts and a supplied seed 7
yields exactly the first data URL and seed 7. -/
theorem c10_single_image_and_seed_witness :
    [("data:" ++ "image/png" ++ ";base64," ++ "AAA" : String)].length = 1 ∧
    (generateImagesFromPrompt 4
        [RespPart.inlineData "image/png" "AAA", RespPart.inlineData "image/png" "BBB"]
        (some 7) 99 =
      Except.ok (["data:" ++ "image/png" ++ ";base64," ++ "AAA"], 7)) := by
  have h : generateImagesFromPrompt 4
      [RespPart.inlineData "image/png" "AAA", RespPart.inlineData "image/png" "BBB"]
      (some 7) 99 =
      Except.ok (["data:" ++ "image/png" ++ ";base64," ++ "AAA"], 7) := rfl
  exact ⟨(c10_single_image_and_seed 4
      [RespPart.inlineData "image/png" "AAA", RespPart.inlineData "image/png" "BBB"]
      (some 7) 99 _ _ h).1, h⟩

end Spec2Proof
